import Mathlib

/-!
Verification development for the type-expression tokenizer and parser of
`src/lexer.py` (classes `Lexer` and `Parser`).

The Python code is embedded shallowly:

* the lexer's mutable state (`string`, `curser`, `current_char`) becomes
  explicit arguments: the fixed source `s : List Char`, the cursor value
  `pos : Nat`, the current character `c : Char`, and the suffix of the
  source that lies strictly after the cursor, `rest : List Char`
  (`_get_next_char` advances the cursor only while `curser + 1 <
  len(string)`, i.e. exactly while `rest` is non-empty, and otherwise sets
  the current character to `"\0"` and leaves the cursor in place);
* the generator `lex_string` becomes a function returning the list of
  yielded tokens together with the exception, if any, that ended
  production (`none` when the stream terminated normally on `EOF`);
* the parser's mutable state (`tokens`, `curser`, `current_token`) is
  threaded through `parseType`; the mutually recursive methods
  `Parser.type` / `Parser.array` / `Parser.map` / `Parser.custom` are
  inlined into the single recursive `parseType`, driven by a recursion
  budget: Python's recursion is bounded by the interpreter's recursion
  limit, and exceeding the budget is the embedding of `RecursionError`.
-/

namespace RiotApi

/-- Token kinds, from `TokenType` in `src/lexer.py` (the Python names
`LPARREN` / `RPARREN` are kept even though the recognized characters are
square brackets). -/
inductive TokenType where
  | STRING
  | INTEGER
  | LONG
  | FLOAT
  | DOUBLE
  | BOOLEAN
  | LIST
  | MAP
  | CUSTOM
  | EOF
  | LPARREN
  | RPARREN
  | UNKNOWN
deriving DecidableEq, Repr

/-- The `Token` dataclass of `src/lexer.py`: kind, matched text, and the
cursor value at the moment the token was created. -/
structure Token where
  type : TokenType
  value : String
  position : Nat
deriving DecidableEq, Repr

/-- Ways the lexer can fail.  `unrecognized` is `UnknownCharacterException`
(its message carries the position, the offending character and the whole
source string); `indexError` is the `IndexError` raised by
`self.string[self.curser]` in `lex_string` when the input is empty;
`outOfFuel` marks exhaustion of the loop budget of the embedding (the
budget supplied by `lex_string` exceeds the number of tokens any input can
produce, so it stands for no Python behaviour reachable from
`lex_string`). -/
inductive LexError where
  | unrecognized (position : Nat) (character : Char) (source : List Char)
  | indexError
  | outOfFuel
deriving DecidableEq, Repr

/-- The NUL character `"\0"` used by `Lexer._get_next_char` as the
end-of-input sentinel. -/
def NUL : Char := Char.ofNat 0

/-- Membership in Python's `string.whitespace` (`" \t\n\r\x0b\x0c"`). -/
def pyWhitespace (c : Char) : Bool :=
  c.toNat == 32 || c.toNat == 9 || c.toNat == 10 ||
  c.toNat == 13 || c.toNat == 11 || c.toNat == 12

/-- The characters skipped by the separator loop at the top of
`Lexer._get_next_token`: whitespace and commas. -/
def isSep (c : Char) : Bool :=
  pyWhitespace c || c == ','

/-- Membership in Python's `string.ascii_letters`, the identifier
continuation test of `Lexer._get_next_string`. -/
def isAsciiLetter (c : Char) : Bool :=
  (65 ≤ c.toNat && c.toNat ≤ 90) || (97 ≤ c.toNat && c.toNat ≤ 122)

/-- Python's `str.isalpha` on one character, the identifier start test of
`Lexer._get_next_token`.  The model is exact for all code points up to
`0xFF`: in that range the alphabetic characters are the ASCII letters, the
signs `ª` (0xAA), `µ` (0xB5), `º` (0xBA), and the Latin-1 letter blocks
0xC0-0xD6, 0xD8-0xF6, 0xF8-0xFF.  Code points above 0xFF are not modelled
(the function returns `false` there), so every theorem quantifying over
input characters restricts them to this range. -/
def pyIsAlpha (c : Char) : Bool :=
  isAsciiLetter c || c.toNat == 0xAA || c.toNat == 0xB5 || c.toNat == 0xBA ||
  (0xC0 ≤ c.toNat && c.toNat ≤ 0xD6) || (0xD8 ≤ c.toNat && c.toNat ≤ 0xF6) ||
  (0xF8 ≤ c.toNat && c.toNat ≤ 0xFF)

/-- The ASCII digits `'0'`-`'9'`. -/
def isAsciiDigit (c : Char) : Bool :=
  48 ≤ c.toNat && c.toNat ≤ 57

/-- `Lexer._get_next_char`: if a character exists after the cursor, move to
it; otherwise set the current character to `"\0"` and leave the cursor in
place. -/
def get_next_char (rest : List Char) (pos : Nat) : Char × List Char × Nat :=
  match rest with
  | [] => (NUL, [], pos)
  | r :: rs => (r, rs, pos + 1)

/-- The separator-skipping loop at the top of `Lexer._get_next_token`
(`while self.current_char in string.whitespace or self.current_char ==
","`).  When the separators run to the end of the source the loop leaves
the machine on the `"\0"` sentinel, which is not a separator. -/
def skip_separators (c : Char) (rest : List Char) (pos : Nat) :
    Char × List Char × Nat :=
  if isSep c then
    match rest with
    | [] => (NUL, [], pos)
    | r :: rs => skip_separators r rs (pos + 1)
  else (c, rest, pos)

/-- `Lexer._get_next_string`: accumulate the current character, advance,
and stop as soon as the current character is outside
`string.ascii_letters`.  Returns the accumulated identifier and the state
at which the loop stopped. -/
def get_next_string (c : Char) (rest : List Char) (pos : Nat) :
    List Char × Char × List Char × Nat :=
  match rest with
  | [] => ([c], NUL, [], pos)
  | r :: rs =>
    if isAsciiLetter r then
      match get_next_string r rs (pos + 1) with
      | (t, c', rest', pos') => (c :: t, c', rest', pos')
    else ([c], r, rs, pos + 1)

/-- The keyword lookup of `Lexer._get_next_token`:
`self.token_type_mapping.get(token_string.lower(), TokenType.CUSTOM)`.
Lower-casing is modelled character-wise with `Char.toLower`, which lowers
exactly the ASCII uppercase letters; Python's `str.lower` also lowers
some non-ASCII letters, but since every key of the tables in this
repository is a lowercase ASCII string, a non-ASCII identifier misses the
table under either reading and gets `CUSTOM` — the lookup result agrees. -/
def kindOf (m : List (String × TokenType)) (t : List Char) : TokenType :=
  (m.lookup (String.mk (t.map Char.toLower))).getD .CUSTOM

/-- `Lexer._get_next_token`: skip separators, then dispatch on the current
character: the `"\0"` sentinel gives `EOF`; `[` and `]` give `LPARREN` /
`RPARREN`; an alphabetic character starts an identifier, whose token kind
comes from the keyword table (default `CUSTOM`), whose text is the
identifier as written, and whose position is the cursor value after the
identifier was consumed — after which the lexer advances one further
character; anything else raises `UnknownCharacterException`.  The result
carries the token together with the machine state after the call. -/
def get_next_token (m : List (String × TokenType)) (s : List Char)
    (c : Char) (rest : List Char) (pos : Nat) :
    Except LexError (Token × Char × List Char × Nat) :=
  match skip_separators c rest pos with
  | (c, rest, pos) =>
    if c = NUL then
      .ok (⟨.EOF, String.mk [c], pos⟩, get_next_char rest pos)
    else if c = '[' then
      .ok (⟨.LPARREN, String.mk [c], pos⟩, get_next_char rest pos)
    else if c = ']' then
      .ok (⟨.RPARREN, String.mk [c], pos⟩, get_next_char rest pos)
    else if pyIsAlpha c then
      match get_next_string c rest pos with
      | (t, _c', rest', pos') =>
        .ok (⟨kindOf m t, String.mk t, pos'⟩,
             get_next_char rest' pos')
    else
      .error (.unrecognized pos c s)

/-- The production loop of `Lexer.lex_string`: request tokens until one has
kind `EOF` (the `EOF` token itself is not yielded), collecting the yielded
tokens and the exception, if any, that ended production. -/
def lexLoop (m : List (String × TokenType)) (s : List Char) :
    Nat → Char → List Char → Nat → List Token × Option LexError
  | 0, _, _, _ => ([], some .outOfFuel)
  | fuel + 1, c, rest, pos =>
    match get_next_token m s c rest pos with
    | .error e => ([], some e)
    | .ok (tok, c', rest', pos') =>
      if tok.type = .EOF then ([], none)
      else
        match lexLoop m s fuel c' rest' pos' with
        | (ts, e) => (tok :: ts, e)

/-- `Lexer.lex_string`: initialize the cursor to 0 and the current
character to `self.string[0]` — which raises `IndexError` on an empty
input — then run the production loop.  The budget `s.length + 1` bounds
the number of loop iterations of any run: every yielded token consumes at
least the character that was current when its production began, so at most
`s.length` tokens precede the terminating `EOF`. -/
def lex_string (m : List (String × TokenType)) (s : List Char) :
    List Token × Option LexError :=
  match s with
  | [] => ([], some .indexError)
  | c :: cs => lexLoop m s (s.length + 1) c cs 0

/-- The keyword table `token_mapping` built in `src/main.py` (and in the
`__main__` block of `src/lexer.py`). -/
def token_mapping : List (String × TokenType) :=
  [("string", .STRING), ("int", .INTEGER), ("long", .LONG),
   ("float", .FLOAT), ("double", .DOUBLE), ("boolean", .BOOLEAN),
   ("list", .LIST), ("map", .MAP)]

/-- The JSON-like values produced by the parser: Python strings, Python's
`None` (what `dict.get` returns for a missing key), and Python dicts in
insertion order. -/
inductive Fragment where
  | str (s : String)
  | null
  | obj (fields : List (String × Fragment))

/-- The primitive-kind-to-schema-type table `CONVERT` of `src/lexer.py`. -/
def CONVERT : List (TokenType × String) :=
  [(.STRING, "string"), (.INTEGER, "integer"), (.LONG, "integer"),
   (.FLOAT, "number"), (.DOUBLE, "number"), (.BOOLEAN, "boolean")]

/-- Ways the parser can fail.  `recursionError` is Python's
`RecursionError`: `Parser.type` recursing past any finite depth budget.
`attributeError` is the `AttributeError` raised when `self.current_token`
is read without ever having been assigned (a fresh `Parser` applied to an
empty token list). -/
inductive ParseError where
  | recursionError
  | attributeError
deriving DecidableEq, Repr

/-- `Parser._advance`: increment the cursor, and load the token at the new
cursor only when the new cursor is in range — otherwise `current_token`
keeps its previous value. -/
def padvance (ts : List Token) (cur : Nat) (tok : Option Token) :
    Nat × Option Token :=
  (cur + 1, if h : cur + 1 < ts.length then some (ts.get ⟨cur + 1, h⟩) else tok)

/-- `Parser.type` with the bodies of `Parser.array`, `Parser.map` and
`Parser.custom` inlined: branch on the kind of the current token;
`LIST` / `MAP` advance and recursively parse one inner type; `CUSTOM`
builds a `$ref`; every other kind builds `{"type": self.type_map.get(kind)}`
(`None` when the kind is missing from the table).  The first argument is
the remaining recursion budget; exhausting it embeds `RecursionError`. -/
def parseType (tm : List (TokenType × String)) :
    Nat → List Token → Nat → Option Token →
    Except ParseError (Fragment × Nat × Option Token)
  | 0, _, _, _ => .error .recursionError
  | fuel + 1, ts, cur, curTok =>
    match curTok with
    | none => .error .attributeError
    | some t =>
      if t.type = .LIST then
        match padvance ts cur curTok with
        | (cur', tok') =>
          match parseType tm fuel ts cur' tok' with
          | .error e => .error e
          | .ok (inner, cur'', tok'') =>
            .ok (.obj [("type", .str "array"), ("items", inner)], cur'', tok'')
      else if t.type = .MAP then
        match padvance ts cur curTok with
        | (cur', tok') =>
          match parseType tm fuel ts cur' tok' with
          | .error e => .error e
          | .ok (inner, cur'', tok'') =>
            .ok (.obj [("type", .str "object"),
                       ("additionalProperties", inner)], cur'', tok'')
      else if t.type = .CUSTOM then
        .ok (.obj [("$ref", .str ("#/definitions/" ++ t.value))], cur, curTok)
      else
        .ok (.obj [("type",
              match tm.lookup t.type with
              | some v => .str v
              | none => .null)], cur, curTok)

/-- `Parser.parse` with an explicit recursion budget and an explicit value
for the possibly-still-unset `current_token` attribute: store the token
list, reset the cursor (Python sets `curser = -1` and calls `_advance`
once, leaving `curser = 0` and `current_token = tokens[0]` when the list
is non-empty, and leaving `current_token` untouched otherwise), then run
`Parser.type`. -/
def parseRun (tm : List (TokenType × String)) (fuel : Nat)
    (init : Option Token) (ts : List Token) : Except ParseError Fragment :=
  let curTok := if h : 0 < ts.length then some (ts.get ⟨0, h⟩) else init
  match parseType tm fuel ts 0 curTok with
  | .ok (f, _, _) => .ok f
  | .error e => .error e

/-- `Parser.parse` on a fresh `Parser` instance (`current_token` unset).
The budget `ts.length + 1` covers every terminating run: each nesting
level of `Parser.type` is entered after exactly one more `_advance`, so a
run that needs more than `ts.length + 1` levels has its cursor past the
end of the list with `current_token` frozen at a `LIST` or `MAP` token,
and recurses identically forever — Python's `RecursionError`. -/
def parse (tm : List (TokenType × String)) (ts : List Token) :
    Except ParseError Fragment :=
  parseRun tm (ts.length + 1) none ts

/-- The character of `s` at index `i`, with the lexer's own out-of-range
convention: past the end the value is the `"\0"` sentinel.  Used to state
positional properties of the token stream. -/
def charAt (s : List Char) (i : Nat) : Char :=
  match s.drop i with
  | [] => NUL
  | c :: _ => c

/-! Character-class lemmas. -/

theorem letter_facts {c : Char} (hc : isAsciiLetter c = true) :
    isSep c = false ∧ c ≠ NUL ∧ c ≠ '[' ∧ c ≠ ']' ∧ pyIsAlpha c = true := by
  have hcomma : c ≠ ',' := by
    intro h; rw [h] at hc; exact absurd hc (by decide)
  have h' : 65 ≤ c.toNat ∧ c.toNat ≤ 90 ∨ 97 ≤ c.toNat ∧ c.toNat ≤ 122 := by
    simpa [isAsciiLetter] using hc
  refine ⟨?_, ?_, ?_, ?_, ?_⟩
  · simp [isSep, pyWhitespace, hcomma]
    omega
  · intro h; rw [h] at hc; exact absurd hc (by decide)
  · intro h; rw [h] at hc; exact absurd hc (by decide)
  · intro h; rw [h] at hc; exact absurd hc (by decide)
  · simp [pyIsAlpha, hc]

theorem digit_facts {c : Char} (hc : isAsciiDigit c = true) :
    isSep c = false ∧ c ≠ NUL ∧ c ≠ '[' ∧ c ≠ ']' ∧
    pyIsAlpha c = false ∧ isAsciiLetter c = false := by
  have hcomma : c ≠ ',' := by
    intro h; rw [h] at hc; exact absurd hc (by decide)
  have h' : 48 ≤ c.toNat ∧ c.toNat ≤ 57 := by
    simpa [isAsciiDigit] using hc
  refine ⟨?_, ?_, ?_, ?_, ?_, ?_⟩
  · simp [isSep, pyWhitespace, hcomma]
    omega
  · intro h; rw [h] at hc; exact absurd hc (by decide)
  · intro h; rw [h] at hc; exact absurd hc (by decide)
  · intro h; rw [h] at hc; exact absurd hc (by decide)
  · simp [pyIsAlpha, isAsciiLetter]
    omega
  · simp [isAsciiLetter]
    omega

/-! Lemmas about the lexer's building blocks. -/

theorem skip_not {c : Char} (rest : List Char) (pos : Nat)
    (h : isSep c = false) : skip_separators c rest pos = (c, rest, pos) := by
  unfold skip_separators
  simp [h]

theorem skip_all : ∀ (rest : List Char) (c : Char) (pos : Nat),
    isSep c = true → (∀ a ∈ rest, isSep a = true) →
    skip_separators c rest pos = (NUL, [], pos + rest.length)
  | [], c, pos, hc, _ => by simp [skip_separators, hc]
  | r :: rs, c, pos, hc, hrest => by
    have hr : isSep r = true := hrest r (by simp)
    have ih := skip_all rs r (pos + 1) hr (fun a ha => hrest a (by simp [ha]))
    simp [skip_separators, hc, ih]
    omega

theorem gns_stop : ∀ (ls : List Char) (c x : Char) (xs : List Char) (pos : Nat),
    (∀ a ∈ ls, isAsciiLetter a = true) → isAsciiLetter x = false →
    get_next_string c (ls ++ x :: xs) pos = (c :: ls, x, xs, pos + ls.length + 1)
  | [], c, x, xs, pos, _, hx => by simp [get_next_string, hx]
  | l :: ls', c, x, xs, pos, hls, hx => by
    have hl : isAsciiLetter l = true := hls l (by simp)
    have ih := gns_stop ls' l x xs (pos + 1) (fun a ha => hls a (by simp [ha])) hx
    simp [get_next_string, hl, ih]
    omega

theorem gns_end : ∀ (ls : List Char) (c : Char) (pos : Nat),
    (∀ a ∈ ls, isAsciiLetter a = true) →
    get_next_string c ls pos = (c :: ls, NUL, [], pos + ls.length)
  | [], c, pos, _ => by simp [get_next_string]
  | l :: ls', c, pos, hls => by
    have hl : isAsciiLetter l = true := hls l (by simp)
    have ih := gns_end ls' l (pos + 1) (fun a ha => hls a (by simp [ha]))
    simp [get_next_string, hl, ih]
    omega

theorem lookup_value_mem {α β : Type} [BEq α] :
    ∀ (l : List (α × β)) {a : α} {b : β},
      l.lookup a = some b → b ∈ l.map Prod.snd
  | [], _, _, h => by simp [List.lookup] at h
  | (k, v) :: rest, a, b, h => by
    rw [List.lookup] at h
    cases hak : (a == k) with
    | true => rw [hak] at h; simp at h; simp [h]
    | false =>
      rw [hak] at h
      have := lookup_value_mem rest h
      simp [this]

/-- The values of the standard keyword table are the eight recognized
primitive and container kinds, so the kind the lexer assigns to an
identifier — a table value or the `CUSTOM` default — is never `EOF`,
`LPARREN` or `RPARREN`. -/
theorem kindOf_token_mapping_range (t : List Char) :
    kindOf token_mapping t ≠ .EOF ∧
    kindOf token_mapping t ≠ .LPARREN ∧
    kindOf token_mapping t ≠ .RPARREN := by
  unfold kindOf
  cases hl : token_mapping.lookup (String.mk (t.map Char.toLower)) with
  | none => simp
  | some ty =>
    have hmem := lookup_value_mem token_mapping hl
    simp [token_mapping] at hmem
    simp
    rcases hmem with rfl | rfl | rfl | rfl | rfl | rfl | rfl | rfl <;> simp

/-! Lemmas about `_get_next_token` on the states the claims reach. -/

/-- An identifier run terminated inside the source: the token carries the
identifier, its position is the cursor of the terminating character, and
the machine is advanced one character past that terminator. -/
theorem get_next_token_ident_mid (m : List (String × TokenType))
    (s : List Char) (c : Char) (ls : List Char) (x : Char) (xs : List Char)
    (pos : Nat) (hc : isAsciiLetter c = true)
    (hls : ∀ a ∈ ls, isAsciiLetter a = true) (hx : isAsciiLetter x = false) :
    get_next_token m s c (ls ++ x :: xs) pos =
      .ok (⟨kindOf m (c :: ls), String.mk (c :: ls),
            pos + ls.length + 1⟩,
           get_next_char xs (pos + ls.length + 1)) := by
  obtain ⟨hsep, hnul, hlb, hrb, halpha⟩ := letter_facts hc
  unfold get_next_token
  rw [skip_not _ _ hsep]
  simp [hnul, hlb, hrb, halpha, gns_stop ls c x xs pos hls hx]

/-- An identifier run terminated by the end of the source: the token's
position is the final index of the source, and the machine rests on the
`"\0"` sentinel. -/
theorem get_next_token_ident_end (m : List (String × TokenType))
    (s : List Char) (c : Char) (ls : List Char) (pos : Nat)
    (hc : isAsciiLetter c = true) (hls : ∀ a ∈ ls, isAsciiLetter a = true) :
    get_next_token m s c ls pos =
      .ok (⟨kindOf m (c :: ls), String.mk (c :: ls),
            pos + ls.length⟩,
           (NUL, [], pos + ls.length)) := by
  obtain ⟨hsep, hnul, hlb, hrb, halpha⟩ := letter_facts hc
  unfold get_next_token
  rw [skip_not _ _ hsep]
  simp [hnul, hlb, hrb, halpha, gns_end ls c pos hls, get_next_char]

/-- On the `"\0"` sentinel, the production loop ends at once with no
further tokens and no error, whatever the remaining budget. -/
theorem lexLoop_nul (m : List (String × TokenType)) (s : List Char)
    (fuel : Nat) (rest : List Char) (pos : Nat) :
    lexLoop m s (fuel + 1) NUL rest pos = ([], none) := by
  unfold lexLoop
  unfold get_next_token
  rw [skip_not _ _ (by decide)]
  simp

/-! The cursor never moves backwards, so every token produced from a given
machine state carries a position at least the state's cursor value. -/

theorem skip_mono : ∀ (rest : List Char) (c : Char) (pos : Nat),
    pos ≤ (skip_separators c rest pos).2.2
  | [], c, pos => by
    unfold skip_separators
    split <;> simp
  | r :: rs, c, pos => by
    by_cases hsep : isSep c
    · rw [skip_separators, if_pos hsep]
      show pos ≤ (skip_separators r rs (pos + 1)).2.2
      have := skip_mono rs r (pos + 1)
      omega
    · rw [skip_separators, if_neg hsep]

theorem gns_mono : ∀ (rest : List Char) (c : Char) (pos : Nat),
    pos ≤ (get_next_string c rest pos).2.2.2
  | [], c, pos => by simp [get_next_string]
  | r :: rs, c, pos => by
    unfold get_next_string
    split
    · have ih := gns_mono rs r (pos + 1)
      rcases hgs : get_next_string r rs (pos + 1) with ⟨t, c', rest', pos'⟩
      rw [hgs] at ih
      simp at ih
      simp only [hgs]
      show pos ≤ pos'
      omega
    · simp

theorem gnc_mono (rest : List Char) (pos : Nat) :
    pos ≤ (get_next_char rest pos).2.2 := by
  cases rest <;> simp [get_next_char]

theorem get_next_token_mono {m : List (String × TokenType)} {s : List Char}
    {c : Char} {rest : List Char} {pos : Nat} {tok : Token} {c' : Char}
    {rest' : List Char} {pos' : Nat}
    (h : get_next_token m s c rest pos = .ok (tok, c', rest', pos')) :
    pos ≤ tok.position ∧ pos ≤ pos' := by
  unfold get_next_token at h
  rcases hsk : skip_separators c rest pos with ⟨c₁, r₁, p₁⟩
  rw [hsk] at h
  have hp₁ : pos ≤ p₁ := by
    have := skip_mono rest c pos
    rw [hsk] at this
    exact this
  simp only [] at h
  split at h
  · rcases hgc : get_next_char r₁ p₁ with ⟨c₂, r₂, p₂⟩
    rw [hgc] at h
    have hp₂ : p₁ ≤ p₂ := by
      have := gnc_mono r₁ p₁
      rw [hgc] at this
      exact this
    simp at h
    obtain ⟨htok, -, -, hpos'⟩ := h
    rw [← htok, ← hpos']
    exact ⟨hp₁, by omega⟩
  · split at h
    · rcases hgc : get_next_char r₁ p₁ with ⟨c₂, r₂, p₂⟩
      rw [hgc] at h
      have hp₂ : p₁ ≤ p₂ := by
        have := gnc_mono r₁ p₁
        rw [hgc] at this
        exact this
      simp at h
      obtain ⟨htok, -, -, hpos'⟩ := h
      rw [← htok, ← hpos']
      exact ⟨hp₁, by omega⟩
    · split at h
      · rcases hgc : get_next_char r₁ p₁ with ⟨c₂, r₂, p₂⟩
        rw [hgc] at h
        have hp₂ : p₁ ≤ p₂ := by
          have := gnc_mono r₁ p₁
          rw [hgc] at this
          exact this
        simp at h
        obtain ⟨htok, -, -, hpos'⟩ := h
        rw [← htok, ← hpos']
        exact ⟨hp₁, by omega⟩
      · split at h
        · rcases hgs : get_next_string c₁ r₁ p₁ with ⟨t, c₂, r₂, p₂⟩
          rw [hgs] at h
          have hp₂ : p₁ ≤ p₂ := by
            have := gns_mono r₁ c₁ p₁
            rw [hgs] at this
            exact this
          rcases hgc : get_next_char r₂ p₂ with ⟨c₃, r₃, p₃⟩
          rw [hgc] at h
          have hp₃ : p₂ ≤ p₃ := by
            have := gnc_mono r₂ p₂
            rw [hgc] at this
            exact this
          simp at h
          obtain ⟨htok, -, -, hpos'⟩ := h
          rw [← htok, ← hpos']
          exact ⟨by show pos ≤ p₂; omega, by show pos ≤ p₃; omega⟩
        · exact absurd h (by simp)

theorem lexLoop_mono : ∀ (fuel : Nat) (m : List (String × TokenType))
    (s : List Char) (c : Char) (rest : List Char) (pos : Nat),
    ∀ t ∈ (lexLoop m s fuel c rest pos).1, pos ≤ t.position
  | 0, m, s, c, rest, pos => by simp [lexLoop]
  | fuel + 1, m, s, c, rest, pos => by
    unfold lexLoop
    cases hgt : get_next_token m s c rest pos with
    | error e => simp
    | ok val =>
      obtain ⟨tok, c', rest', pos'⟩ := val
      obtain ⟨htok, hpos'⟩ := get_next_token_mono hgt
      by_cases heof : tok.type = .EOF
      · simp [heof]
      · rcases hrec : lexLoop m s fuel c' rest' pos' with ⟨ts', e'⟩
        have ih := lexLoop_mono fuel m s c' rest' pos'
        rw [hrec] at ih
        simp [heof, hrec]
        refine ⟨htok, fun a ha => ?_⟩
        have := ih a ha
        omega

/-- Once the parser's cursor has a `LIST` or `MAP` token current and every
token of the list is of such a kind, `_advance` can only keep a `LIST` or
`MAP` token current, so `Parser.type` recurses forever: any recursion
budget is exhausted. -/
theorem parseType_frozen (tm : List (TokenType × String)) :
    ∀ (fuel : Nat) (ts : List Token) (cur : Nat) (t : Token),
    (t.type = .LIST ∨ t.type = .MAP) →
    (∀ u ∈ ts, u.type = .LIST ∨ u.type = .MAP) →
    parseType tm fuel ts cur (some t) = .error .recursionError
  | 0, _, _, _, _, _ => rfl
  | fuel + 1, ts, cur, t, ht, hall => by
    rcases hpa : padvance ts cur (some t) with ⟨cur', tok'⟩
    have htok' : ∃ u, tok' = some u ∧ (u.type = .LIST ∨ u.type = .MAP) := by
      unfold padvance at hpa
      by_cases hlt : cur + 1 < ts.length
      · rw [dif_pos hlt] at hpa
        simp at hpa
        exact ⟨ts.get ⟨cur + 1, hlt⟩,
               hpa.2.symm, hall _ (ts.get_mem (cur + 1) hlt)⟩
      · rw [dif_neg hlt] at hpa
        simp at hpa
        exact ⟨t, hpa.2.symm, ht⟩
    obtain ⟨u, rfl, hu⟩ := htok'
    have ih := parseType_frozen tm fuel ts cur' u hu hall
    unfold parseType
    rcases ht with ht | ht
    · simp [ht, hpa, ih]
    · simp [ht, hpa, ih]

/-! One-iteration unfoldings of the production loop. -/

theorem lexLoop_cons (m : List (String × TokenType)) (s : List Char)
    (fuel : Nat) (c : Char) (rest : List Char) (pos : Nat) :
    lexLoop m s (fuel + 1) c rest pos =
      match get_next_token m s c rest pos with
      | .error e => ([], some e)
      | .ok (tok, c', rest', pos') =>
        if tok.type = .EOF then ([], none)
        else
          match lexLoop m s fuel c' rest' pos' with
          | (ts, e) => (tok :: ts, e) := rfl

theorem get_next_token_err (m : List (String × TokenType)) (s : List Char)
    (c : Char) (rest : List Char) (pos : Nat) (hsep : isSep c = false)
    (hnul : c ≠ NUL) (hlb : c ≠ '[') (hrb : c ≠ ']')
    (halpha : pyIsAlpha c = false) :
    get_next_token m s c rest pos = .error (.unrecognized pos c s) := by
  unfold get_next_token
  rw [skip_not _ _ hsep]
  simp [hnul, hlb, hrb, halpha]

/-- From a state whose current character is one the dispatch rejects, the
production loop stops at once with `UnknownCharacterException` and no
further tokens, whatever the remaining budget. -/
theorem lexLoop_err (m : List (String × TokenType)) (s : List Char)
    (fuel : Nat) (c : Char) (rest : List Char) (pos : Nat)
    (hsep : isSep c = false) (hnul : c ≠ NUL) (hlb : c ≠ '[') (hrb : c ≠ ']')
    (halpha : pyIsAlpha c = false) :
    lexLoop m s (fuel + 1) c rest pos = ([], some (.unrecognized pos c s)) := by
  rw [lexLoop_cons, get_next_token_err m s c rest pos hsep hnul hlb hrb halpha]

/-- A whole input that is one identifier: the loop yields the identifier
token (kind from the keyword table, default `CUSTOM`; text as written;
position the final index) and then terminates on `EOF`. -/
theorem lexLoop_single_ident (s : List Char) (fuel : Nat) (c : Char)
    (ls : List Char) (pos : Nat) (hc : isAsciiLetter c = true)
    (hls : ∀ a ∈ ls, isAsciiLetter a = true) :
    lexLoop token_mapping s (fuel + 2) c ls pos =
      ([⟨kindOf token_mapping (c :: ls), String.mk (c :: ls),
         pos + ls.length⟩], none) := by
  have hne := (kindOf_token_mapping_range (c :: ls)).1
  rw [show fuel + 2 = (fuel + 1) + 1 from rfl, lexLoop_cons,
      get_next_token_ident_end token_mapping s c ls pos hc hls]
  simp [hne, lexLoop_nul]

/-- An identifier followed by a non-letter terminator and at least one more
character: the loop yields the identifier token, the terminator is skipped
by the extra advance, and production continues at the character after the
terminator. -/
theorem lexLoop_ident_step (s : List Char) (fuel : Nat) (c : Char)
    (ls : List Char) (x y : Char) (ys : List Char) (pos : Nat)
    (hc : isAsciiLetter c = true) (hls : ∀ a ∈ ls, isAsciiLetter a = true)
    (hx : isAsciiLetter x = false) :
    lexLoop token_mapping s (fuel + 2) c (ls ++ x :: y :: ys) pos =
      (⟨kindOf token_mapping (c :: ls), String.mk (c :: ls),
        pos + ls.length + 1⟩ ::
         (lexLoop token_mapping s (fuel + 1) y ys (pos + ls.length + 2)).1,
       (lexLoop token_mapping s (fuel + 1) y ys (pos + ls.length + 2)).2) := by
  have hne := (kindOf_token_mapping_range (c :: ls)).1
  rw [show fuel + 2 = (fuel + 1) + 1 from rfl, lexLoop_cons,
      get_next_token_ident_mid token_mapping s c ls x (y :: ys) pos hc hls hx]
  simp [get_next_char, hne]

/-- An identifier terminated by the final character of the source: the
loop yields the identifier token, the extra advance runs off the end, and
production terminates on `EOF`; the terminating character is never
tokenized. -/
theorem lexLoop_ident_last (s : List Char) (fuel : Nat) (c : Char)
    (ls : List Char) (x : Char) (pos : Nat) (hc : isAsciiLetter c = true)
    (hls : ∀ a ∈ ls, isAsciiLetter a = true) (hx : isAsciiLetter x = false) :
    lexLoop token_mapping s (fuel + 2) c (ls ++ [x]) pos =
      ([⟨kindOf token_mapping (c :: ls), String.mk (c :: ls),
         pos + ls.length + 1⟩], none) := by
  have hne := (kindOf_token_mapping_range (c :: ls)).1
  rw [show fuel + 2 = (fuel + 1) + 1 from rfl, lexLoop_cons,
      get_next_token_ident_mid token_mapping s c ls x [] pos hc hls hx]
  simp [get_next_char, hne, lexLoop_nul]

/-! Consistency of the machine state with the source, and the boundary
invariant behind the post-identifier skip: at the start of every loop
iteration the cursor sits at index 0 or just after a non-letter, so a
bracket directly preceded by a letter can never become the dispatch
character. -/

theorem drop_next {s : List Char} {pos : Nat} {c : Char} {l : List Char}
    (h : s.drop pos = c :: l) : s.drop (pos + 1) = l := by
  calc s.drop (pos + 1) = (s.drop pos).drop 1 := by
        rw [List.drop_drop, Nat.add_comm]
    _ = (c :: l).drop 1 := by rw [h]
    _ = l := rfl

theorem charAt_drop {s : List Char} {pos : Nat} {c : Char} {l : List Char}
    (h : s.drop pos = c :: l) : charAt s pos = c := by
  unfold charAt
  rw [h]

/-- The separator loop keeps the state consistent with the source: it ends
on the `"\0"` sentinel or on the character of `s` at the final cursor. -/
theorem skip_good (s : List Char) : ∀ (rest : List Char) (c : Char)
    (pos : Nat), s.drop pos = c :: rest →
    (skip_separators c rest pos).1 = NUL ∨
    s.drop (skip_separators c rest pos).2.2 =
      (skip_separators c rest pos).1 :: (skip_separators c rest pos).2.1
  | [], c, pos, h => by
    unfold skip_separators
    split
    · exact Or.inl rfl
    · exact Or.inr (by simpa using h)
  | r :: rs, c, pos, h => by
    by_cases hsep : isSep c
    · rw [skip_separators, if_pos hsep]
      show (skip_separators r rs (pos + 1)).1 = NUL ∨
        s.drop (skip_separators r rs (pos + 1)).2.2 =
          (skip_separators r rs (pos + 1)).1 ::
            (skip_separators r rs (pos + 1)).2.1
      exact skip_good s rs r (pos + 1) (drop_next h)
    · rw [skip_separators, if_neg hsep]
      exact Or.inr (by simpa using h)

/-- The cursor where the separator loop stops is either the start cursor
or lies just after a skipped character, which is a separator. -/
theorem skip_origin (s : List Char) : ∀ (rest : List Char) (c : Char)
    (pos : Nat), s.drop pos = c :: rest →
    (skip_separators c rest pos).2.2 = pos ∨
    (1 ≤ (skip_separators c rest pos).2.2 ∧
     isSep (charAt s ((skip_separators c rest pos).2.2 - 1)) = true)
  | [], c, pos, h => by
    unfold skip_separators
    split
    · exact Or.inl rfl
    · exact Or.inl rfl
  | r :: rs, c, pos, h => by
    by_cases hsep : isSep c
    · rw [skip_separators, if_pos hsep]
      show (skip_separators r rs (pos + 1)).2.2 = pos ∨
        (1 ≤ (skip_separators r rs (pos + 1)).2.2 ∧
         isSep (charAt s ((skip_separators r rs (pos + 1)).2.2 - 1)) = true)
      rcases skip_origin s rs r (pos + 1) (drop_next h) with heq | hright
      · refine Or.inr ⟨by omega, ?_⟩
        rw [heq]
        simpa [charAt_drop h] using hsep
      · exact Or.inr hright
    · rw [skip_separators, if_neg hsep]
      exact Or.inl rfl

/-- The identifier loop stops on a character outside `ascii_letters`, and
its stop state is consistent with the source: either the `"\0"` sentinel
with nothing after, or the character of `s` at the stop cursor. -/
theorem gns_state (s : List Char) : ∀ (rest : List Char) (c : Char)
    (pos : Nat), s.drop pos = c :: rest →
    isAsciiLetter (get_next_string c rest pos).2.1 = false ∧
    (((get_next_string c rest pos).2.1 = NUL ∧
      (get_next_string c rest pos).2.2.1 = []) ∨
     s.drop (get_next_string c rest pos).2.2.2 =
       (get_next_string c rest pos).2.1 :: (get_next_string c rest pos).2.2.1)
  | [], c, pos, h => by
    unfold get_next_string
    exact ⟨by show isAsciiLetter NUL = false; decide, Or.inl ⟨rfl, rfl⟩⟩
  | r :: rs, c, pos, h => by
    by_cases hr : isAsciiLetter r
    · rw [get_next_string, if_pos hr]
      have ih := gns_state s rs r (pos + 1) (drop_next h)
      rcases hgs : get_next_string r rs (pos + 1) with ⟨t, c', rest', pos'⟩
      rw [hgs] at ih
      simp only [hgs]
      simpa using ih
    · rw [get_next_string, if_neg hr]
      exact ⟨by simpa using hr, Or.inr (by simpa using drop_next h)⟩

/-- On the `"\0"` sentinel the loop yields no further tokens, with any
budget (with budget 0 the budget marker is the error, still no tokens). -/
theorem lexLoop_nul_any (m : List (String × TokenType)) (s : List Char)
    (fuel : Nat) (rest : List Char) (pos : Nat) :
    (lexLoop m s fuel NUL rest pos).1 = [] := by
  cases fuel with
  | zero => rfl
  | succ n => rw [lexLoop_nul]

/-- Core of C10.  A `LPARREN`/`RPARREN` token at position `q` can only be
produced by dispatching on the bracket character of `s` at cursor `q`, and
the dispatch cursor is either the iteration's start cursor or sits just
after a skipped separator.  Along every run the start cursor is 0 or sits
just after a non-letter (the identifier terminator or an already-consumed
single-character token), so if the character before position `p` is an
ASCII letter, no bracket token at `p` is ever produced. -/
theorem lexLoop_no_bracket_after_letter (s : List Char) (p : Nat)
    (hp1 : 1 ≤ p) (hletter : isAsciiLetter (charAt s (p - 1)) = true) :
    ∀ (fuel : Nat) (c : Char) (rest : List Char) (pos : Nat),
    c = NUL ∨ (s.drop pos = c :: rest ∧
      (pos = 0 ∨ isAsciiLetter (charAt s (pos - 1)) = false)) →
    ∀ t ∈ (lexLoop token_mapping s fuel c rest pos).1,
      ¬(t.position = p ∧ (t.type = .LPARREN ∨ t.type = .RPARREN))
  | 0, c, rest, pos, _ => by simp [lexLoop]
  | fuel + 1, c, rest, pos, hinv => by
    rcases hinv with rfl | ⟨hdrop, hbnd⟩
    · rw [lexLoop_nul]
      simp
    · rcases hsk : skip_separators c rest pos with ⟨c₁, r₁, p₁⟩
      have hgood := skip_good s rest c pos hdrop
      have horig := skip_origin s rest c pos hdrop
      rw [hsk] at hgood horig
      simp only [] at hgood horig
      have hp₁ne : p₁ ≠ p := by
        intro he
        subst he
        rcases horig with heq | ⟨-, hsepp⟩
        · rcases hbnd with h0 | hnl
          · omega
          · rw [← heq] at hnl
            rw [hnl] at hletter
            simp at hletter
        · rw [(letter_facts hletter).1] at hsepp
          simp at hsepp
      by_cases h1 : c₁ = NUL
      · subst h1
        have hgt : get_next_token token_mapping s c rest pos =
            .ok (⟨.EOF, String.mk [NUL], p₁⟩, get_next_char r₁ p₁) := by
          unfold get_next_token
          rw [hsk]
          simp
        rw [lexLoop_cons, hgt]
        simp
      · have hdrop₁ : s.drop p₁ = c₁ :: r₁ := by
          rcases hgood with hnul | hg
          · exact absurd hnul h1
          · exact hg
        by_cases h2 : c₁ = '['
        · subst h2
          have hgt : get_next_token token_mapping s c rest pos =
              .ok (⟨.LPARREN, String.mk ['['], p₁⟩, get_next_char r₁ p₁) := by
            unfold get_next_token
            rw [hsk]
            simp [show ('[' : Char) ≠ NUL by decide]
          cases r₁ with
          | nil =>
            rw [lexLoop_cons, hgt]
            simp [get_next_char, lexLoop_nul_any]
            exact hp₁ne
          | cons y ys =>
            rw [lexLoop_cons, hgt]
            have ih := lexLoop_no_bracket_after_letter s p hp1 hletter fuel
              y ys (p₁ + 1)
              (Or.inr ⟨drop_next hdrop₁,
                Or.inr (by rw [Nat.add_sub_cancel, charAt_drop hdrop₁]; decide)⟩)
            simp [get_next_char]
            refine ⟨fun hq => absurd hq hp₁ne, fun a ha hq =>
              ⟨fun hA => ih a ha ⟨hq, Or.inl hA⟩,
               fun hB => ih a ha ⟨hq, Or.inr hB⟩⟩⟩
        · by_cases h3 : c₁ = ']'
          · subst h3
            have hgt : get_next_token token_mapping s c rest pos =
                .ok (⟨.RPARREN, String.mk [']'], p₁⟩, get_next_char r₁ p₁) := by
              unfold get_next_token
              rw [hsk]
              simp [show (']' : Char) ≠ NUL by decide,
                    show (']' : Char) ≠ '[' by decide]
            cases r₁ with
            | nil =>
              rw [lexLoop_cons, hgt]
              simp [get_next_char, lexLoop_nul_any]
              exact hp₁ne
            | cons y ys =>
              rw [lexLoop_cons, hgt]
              have ih := lexLoop_no_bracket_after_letter s p hp1 hletter fuel
                y ys (p₁ + 1)
                (Or.inr ⟨drop_next hdrop₁,
                  Or.inr (by rw [Nat.add_sub_cancel, charAt_drop hdrop₁]; decide)⟩)
              simp [get_next_char]
              refine ⟨fun hq => absurd hq hp₁ne, fun a ha hq =>
                ⟨fun hA => ih a ha ⟨hq, Or.inl hA⟩,
                 fun hB => ih a ha ⟨hq, Or.inr hB⟩⟩⟩
          · by_cases h4 : pyIsAlpha c₁
            · rcases hgs : get_next_string c₁ r₁ p₁ with ⟨t₂, c₂, r₂, p₂⟩
              have hst := gns_state s r₁ c₁ p₁ hdrop₁
              rw [hgs] at hst
              simp only [] at hst
              obtain ⟨hstop, hst2⟩ := hst
              have hgt : get_next_token token_mapping s c rest pos =
                  .ok (⟨kindOf token_mapping t₂, String.mk t₂, p₂⟩,
                       get_next_char r₂ p₂) := by
                unfold get_next_token
                rw [hsk]
                simp [h1, h2, h3, h4, hgs]
              obtain ⟨hkeof, hklp, hkrp⟩ := kindOf_token_mapping_range t₂
              cases r₂ with
              | nil =>
                rw [lexLoop_cons, hgt]
                simp [get_next_char, hkeof, lexLoop_nul_any]
                exact fun _ => ⟨hklp, hkrp⟩
              | cons y ys =>
                rw [lexLoop_cons, hgt]
                have hdrop₂ : s.drop p₂ = c₂ :: y :: ys := by
                  rcases hst2 with ⟨-, hemp⟩ | hg
                  · cases hemp
                  · exact hg
                have ih := lexLoop_no_bracket_after_letter s p hp1 hletter
                  fuel y ys (p₂ + 1)
                  (Or.inr ⟨drop_next hdrop₂,
                    Or.inr (by rw [Nat.add_sub_cancel, charAt_drop hdrop₂]
                               exact hstop)⟩)
                simp [get_next_char, hkeof]
                refine ⟨fun _ => ⟨hklp, hkrp⟩, fun a ha hq =>
                  ⟨fun hA => ih a ha ⟨hq, Or.inl hA⟩,
                   fun hB => ih a ha ⟨hq, Or.inr hB⟩⟩⟩
            · have hgt : get_next_token token_mapping s c rest pos =
                  .error (.unrecognized p₁ c₁ s) := by
                unfold get_next_token
                rw [hsk]
                simp [h1, h2, h3, h4]
              rw [lexLoop_cons, hgt]
              simp

/-! The claims. -/

/-- C1: evaluation of the code at the claim's input.  Tokenizing
`"Map[String, Map[String, string]]"` yields six tokens (each `[` directly
follows an identifier and is skipped by the post-identifier advance), and
parsing them returns `{"type": "object", "additionalProperties": {"type":
"string"}}`: `Parser.map` advances past `MAP` and parses exactly one inner
type — the key type `String` — so the value type `Map[String, string]`
never enters the result, and the remaining tokens are silently ignored.
The nested fragment the claim states is not produced. -/
theorem claim_C1_map_eval :
    lex_string token_mapping "Map[String, Map[String, string]]".data =
      ([⟨.MAP, "Map", 3⟩, ⟨.STRING, "String", 10⟩, ⟨.MAP, "Map", 15⟩,
        ⟨.STRING, "String", 22⟩, ⟨.STRING, "string", 30⟩,
        ⟨.RPARREN, "]", 31⟩], none) ∧
    parse CONVERT
      [⟨.MAP, "Map", 3⟩, ⟨.STRING, "String", 10⟩, ⟨.MAP, "Map", 15⟩,
       ⟨.STRING, "String", 22⟩, ⟨.STRING, "string", 30⟩,
       ⟨.RPARREN, "]", 31⟩] =
      .ok (.obj [("type", .str "object"),
                 ("additionalProperties", .obj [("type", .str "string")])]) :=
  ⟨by decide, rfl⟩

/-- C6: tokenizing `"List[int]"` yields the `LIST` and `INTEGER` tokens
(the `[` is skipped by the post-identifier advance and the `]` never
reached), and parsing them returns
`{"type": "array", "items": {"type": "integer"}}`. -/
theorem claim_C6_list_int :
    lex_string token_mapping "List[int]".data =
      ([⟨.LIST, "List", 4⟩, ⟨.INTEGER, "int", 8⟩], none) ∧
    parse CONVERT [⟨.LIST, "List", 4⟩, ⟨.INTEGER, "int", 8⟩] =
      .ok (.obj [("type", .str "array"),
                 ("items", .obj [("type", .str "integer")])]) :=
  ⟨by decide, rfl⟩

/-- C2, counterexample to the claim as stated.  `"int3"` contains a digit
and its prefix before the first digit is letters only, yet tokenizing does
not raise: the post-identifier advance consumes the digit and the stream
ends normally.  `"int32"` does raise `UnknownCharacterException`, but at
position 4 — the second digit — not at position 3, the first digit. -/
theorem claim_C2_counterexample :
    lex_string token_mapping "int3".data =
      ([⟨.INTEGER, "int", 3⟩], none) ∧
    lex_string token_mapping "int32".data =
      ([⟨.INTEGER, "int", 3⟩],
       some (.unrecognized 4 '2' "int32".data)) := by
  constructor <;> decide

/-- C2, amended: for every input that is a non-empty run of ASCII letters
followed by at least two ASCII digits, tokenizing yields the identifier
token (with position at the first digit) and then raises
`UnknownCharacterException` at the position of the second digit: the first
digit is silently consumed by the post-identifier advance.  (With a single
trailing digit and nothing after it, no exception is raised at all.) -/
theorem claim_C2_digit_position (c : Char) (ls : List Char) (d₁ d₂ : Char)
    (r : List Char) (hc : isAsciiLetter c = true)
    (hls : ∀ a ∈ ls, isAsciiLetter a = true)
    (hd₁ : isAsciiDigit d₁ = true) (hd₂ : isAsciiDigit d₂ = true) :
    lex_string token_mapping (c :: (ls ++ d₁ :: d₂ :: r)) =
      ([⟨kindOf token_mapping (c :: ls), String.mk (c :: ls),
         ls.length + 1⟩],
       some (.unrecognized (ls.length + 2) d₂ (c :: (ls ++ d₁ :: d₂ :: r)))) := by
  obtain ⟨-, -, -, -, -, hlet₁⟩ := digit_facts hd₁
  obtain ⟨hsep₂, hnul₂, hlb₂, hrb₂, halpha₂, -⟩ := digit_facts hd₂
  show lexLoop token_mapping (c :: (ls ++ d₁ :: d₂ :: r))
      ((c :: (ls ++ d₁ :: d₂ :: r)).length + 1) c (ls ++ d₁ :: d₂ :: r) 0 = _
  have hlen : (c :: (ls ++ d₁ :: d₂ :: r)).length + 1 =
      (ls.length + r.length + 2) + 2 := by
    simp
    omega
  rw [hlen, lexLoop_ident_step _ _ c ls d₁ d₂ r 0 hc hls hlet₁,
      lexLoop_err _ _ _ d₂ r (0 + ls.length + 2) hsep₂ hnul₂ hlb₂ hrb₂ halpha₂]
  simp

/-- C2 witness: the amended statement applied to `"int32"`. -/
theorem claim_C2_digit_position_witness :
    lex_string token_mapping "int32".data =
      ([⟨kindOf token_mapping ('i' :: ['n', 't']),
         String.mk ('i' :: ['n', 't']), 3⟩],
       some (.unrecognized 4 '2' "int32".data)) :=
  claim_C2_digit_position 'i' ['n', 't'] '3' '2' []
    (by decide) (by decide) (by decide) (by decide)

/-- C3, counterexample to the claim as stated for the empty input: the
first request to the generator evaluates `self.string[self.curser]` with
an empty string and raises `IndexError` instead of yielding the `END`
sentinel. -/
theorem claim_C3_counterexample :
    lex_string token_mapping [] = ([], some .indexError) := rfl

/-- C3, amended: for every NON-empty input consisting only of whitespace
characters and commas, tokenizing succeeds and yields zero content tokens:
the separator loop consumes the whole input, the cursor lands on the
end-of-input sentinel, and the `EOF` token terminates production without
being yielded. -/
theorem claim_C3_only_separators (c : Char) (cs : List Char)
    (hc : isSep c = true) (hcs : ∀ a ∈ cs, isSep a = true) :
    lex_string token_mapping (c :: cs) = ([], none) := by
  show lexLoop token_mapping (c :: cs) ((c :: cs).length + 1) c cs 0 = _
  have hlen : (c :: cs).length + 1 = cs.length + 1 + 1 := by simp
  rw [hlen, lexLoop_cons]
  unfold get_next_token
  rw [skip_all cs c 0 hc hcs]
  simp

/-- C3 witness: the amended statement applied to `" ,"`. -/
theorem claim_C3_only_separators_witness :
    lex_string token_mapping (' ' :: [',']) = ([], none) :=
  claim_C3_only_separators ' ' [','] (by decide) (by decide)

/-- C4, counterexample to the claim as stated.  Two characters that are
not ASCII letters, not brackets, not whitespace and not commas fail to
raise `UnknownCharacterException` when the cursor reaches them: the NUL
character is indistinguishable from the end-of-input sentinel, so the
one-character input `"\0"` tokenizes successfully with zero tokens; and
the non-ASCII letter `é` satisfies Python's `str.isalpha`, so `"é"`
tokenizes as a `CUSTOM` identifier token. -/
theorem claim_C4_counterexample :
    lex_string token_mapping [NUL] = ([], none) ∧
    lex_string token_mapping ['é'] = ([⟨.CUSTOM, "é", 0⟩], none) := by
  constructor <;> decide

/-- C4, amended: for every character in the Latin-1 range that is not
alphabetic in Python's sense (rather than "not an ASCII letter"), not `[`
or `]`, not whitespace, not a comma, and not the NUL character (which the
lexer treats as the end-of-input sentinel), any state of the production
loop whose current character is that character raises
`UnknownCharacterException` carrying the character, its cursor position
and the full source, and token production stops immediately with no
skipping or recovery. -/
theorem claim_C4_unrecognized (s : List Char) (fuel : Nat) (c : Char)
    (rest : List Char) (pos : Nat) (_hlatin : c.toNat ≤ 255)
    (halpha : pyIsAlpha c = false) (hsep : isSep c = false)
    (hnul : c ≠ NUL) (hlb : c ≠ '[') (hrb : c ≠ ']') :
    lexLoop token_mapping s (fuel + 1) c rest pos =
      ([], some (.unrecognized pos c s)) :=
  lexLoop_err token_mapping s fuel c rest pos hsep hnul hlb hrb halpha

/-- C4 witness: the amended statement applied to the state the lexer
reaches on `"[#"` after yielding the `LPARREN` token: cursor 1, current
character `#`, nothing after. -/
theorem claim_C4_unrecognized_witness :
    lexLoop token_mapping ['[', '#'] 1 '#' [] 1 =
      ([], some (.unrecognized 1 '#' ['[', '#'])) :=
  claim_C4_unrecognized ['[', '#'] 0 '#' [] 1
    (by decide) (by decide) (by decide) (by decide) (by decide) (by decide)

/-- C5, counterexample to the claim as stated: on the token list `[LIST]`
— a list the grammar requires to continue but which has no following
tokens — `parse` fails with `RecursionError`, not with an
index-out-of-range error: `_advance` only reads `tokens[curser]` under the
guard `curser < len(tokens)`, so no index error can occur; past the end it
leaves `current_token` frozen at the `LIST` token and `Parser.type`
recurses on it forever. -/
theorem claim_C5_counterexample :
    parse CONVERT [⟨.LIST, "List", 4⟩] = .error .recursionError := rfl

/-- C5, amended: for every non-empty token list all of whose tokens have
kind `LIST` or `MAP` (so the grammar always requires a further token that
is not there), `parse` does not return a fragment: whatever the recursion
budget, it ends in `RecursionError`, because past the end of the list
`_advance` leaves `current_token` unchanged and the recursion never
terminates.  No index-out-of-range error occurs. -/
theorem claim_C5_truncated_recursion (tm : List (TokenType × String))
    (fuel : Nat) (init : Option Token) (ts : List Token) (hne : ts ≠ [])
    (hall : ∀ t ∈ ts, t.type = .LIST ∨ t.type = .MAP) :
    parseRun tm fuel init ts = .error .recursionError := by
  cases ts with
  | nil => exact absurd rfl hne
  | cons t ts' =>
    have h0 : (0 : Nat) < (t :: ts').length := by simp
    have hfro := parseType_frozen tm fuel (t :: ts') 0 t
      (hall t (by simp)) hall
    simp [parseRun, h0, hfro]

/-- C5 witness: the amended statement applied to the singleton `LIST`
token list with recursion budget 7. -/
theorem claim_C5_truncated_recursion_witness :
    parseRun CONVERT 7 none [⟨.LIST, "List", 4⟩] = .error .recursionError :=
  claim_C5_truncated_recursion CONVERT 7 none [⟨.LIST, "List", 4⟩]
    (by decide) (by decide)

/-- C7: tokenizing a single identifier — a non-empty run of ASCII letters
— yields exactly one token and no error; its kind is the keyword table's
entry for the lowercased identifier, defaulting to `CUSTOM` when absent
(that is `kindOf`), and its text is the identifier exactly as written, in
its original casing. -/
theorem claim_C7_single_identifier (c : Char) (ls : List Char)
    (hc : isAsciiLetter c = true) (hls : ∀ a ∈ ls, isAsciiLetter a = true) :
    lex_string token_mapping (c :: ls) =
      ([⟨kindOf token_mapping (c :: ls), String.mk (c :: ls), ls.length⟩],
       none) := by
  show lexLoop token_mapping (c :: ls) ((c :: ls).length + 1) c ls 0 = _
  have hlen : (c :: ls).length + 1 = ls.length + 2 := by simp
  rw [hlen, lexLoop_single_ident (c :: ls) ls.length c ls 0 hc hls]
  simp

/-- C7 witness: the statement applied to `"Map"`, whose lowercased form
`"map"` is a key of the table, together with the evaluation of the
resulting kind to `MAP`. -/
theorem claim_C7_single_identifier_witness :
    lex_string token_mapping ('M' :: ['a', 'p']) =
      ([⟨kindOf token_mapping ('M' :: ['a', 'p']),
         String.mk ('M' :: ['a', 'p']), 2⟩], none) ∧
    kindOf token_mapping ('M' :: ['a', 'p']) = .MAP :=
  ⟨claim_C7_single_identifier 'M' ['a', 'p'] (by decide) (by decide),
   by decide⟩

/-- C8: for every identifier — a non-empty run of ASCII letters — whose
lowercased form is not a key of the keyword table, tokenizing yields the
single `CUSTOM` token with the identifier as written, and parsing that
token list returns `{"$ref": "#/definitions/<identifier>"}` with the
identifier spelled exactly as in the input. -/
theorem claim_C8_custom_ref (c : Char) (ls : List Char)
    (hc : isAsciiLetter c = true) (hls : ∀ a ∈ ls, isAsciiLetter a = true)
    (hlook : token_mapping.lookup (String.mk ((c :: ls).map Char.toLower)) =
      none) :
    lex_string token_mapping (c :: ls) =
      ([⟨.CUSTOM, String.mk (c :: ls), ls.length⟩], none) ∧
    parse CONVERT [⟨.CUSTOM, String.mk (c :: ls), ls.length⟩] =
      .ok (.obj [("$ref", .str ("#/definitions/" ++ String.mk (c :: ls)))]) := by
  have hk : kindOf token_mapping (c :: ls) = .CUSTOM := by
    unfold kindOf
    rw [hlook]
    rfl
  constructor
  · show lexLoop token_mapping (c :: ls) ((c :: ls).length + 1) c ls 0 = _
    have hlen : (c :: ls).length + 1 = ls.length + 2 := by simp
    rw [hlen, lexLoop_single_ident (c :: ls) ls.length c ls 0 hc hls]
    simp [hk]
  · rfl

/-- C8 witness: the statement applied to `"SomeCustomType"`. -/
theorem claim_C8_custom_ref_witness :
    lex_string token_mapping ('S' :: "omeCustomType".data) =
      ([⟨.CUSTOM, String.mk ('S' :: "omeCustomType".data), 13⟩], none) ∧
    parse CONVERT [⟨.CUSTOM, String.mk ('S' :: "omeCustomType".data), 13⟩] =
      .ok (.obj [("$ref",
            .str ("#/definitions/" ++ String.mk ('S' :: "omeCustomType".data)))]) :=
  claim_C8_custom_ref 'S' "omeCustomType".data
    (by decide) (by decide) (by decide)

/-- C9: the parser's result on a non-empty token list does not depend on
any state left over from earlier runs: `parse` stores the fresh token
list, resets the cursor, and loads the first token, so `current_token`'s
previous value — the only instance state an earlier call can leave behind
— is overwritten, and a second call on the same token list returns a
structurally identical fragment: `parse` is a pure function of its input
token list. -/
theorem claim_C9_parse_pure (tm : List (TokenType × String)) (fuel : Nat)
    (i₁ i₂ : Option Token) (ts : List Token) (hne : ts ≠ []) :
    parseRun tm fuel i₁ ts = parseRun tm fuel i₂ ts := by
  cases ts with
  | nil => exact absurd rfl hne
  | cons t ts' => simp [parseRun]

/-- C9 witness: a fresh parser and a parser holding a stale `current_token`
agree on the token list of `"string"`. -/
theorem claim_C9_parse_pure_witness :
    parseRun CONVERT 2 none [⟨.STRING, "string", 5⟩] =
      parseRun CONVERT 2 (some ⟨.LIST, "List", 7⟩) [⟨.STRING, "string", 5⟩] :=
  claim_C9_parse_pure CONVERT 2 none (some ⟨.LIST, "List", 7⟩)
    [⟨.STRING, "string", 5⟩] (by decide)

/-- C10: for every input and every position `p` in it where `[` or `]`
directly follows an identifier — the character at `p - 1` is an ASCII
letter, so the bracket at `p` directly follows a run of letters with no
intervening whitespace or comma — the token stream contains no
`LPARREN`/`RPARREN` token for that bracket: no token carries both position
`p` and a bracket kind.  This is the post-identifier extra advance at
work: the identifier run covering position `p - 1` stops on the bracket
and the lexer then advances one character past it, so the bracket is never
dispatched.  (A token at position `p` can still exist — the identifier
token itself records the bracket's position — but its kind is a keyword
table value or `CUSTOM`, never a bracket kind.) -/
theorem claim_C10_bracket_skipped (s : List Char) (p : Nat)
    (hp1 : 1 ≤ p) (hletter : isAsciiLetter (charAt s (p - 1)) = true)
    (_hbr : charAt s p = '[' ∨ charAt s p = ']') :
    ∀ t ∈ (lex_string token_mapping s).1,
      ¬(t.position = p ∧ (t.type = .LPARREN ∨ t.type = .RPARREN)) := by
  cases s with
  | nil => simp [lex_string]
  | cons c cs =>
    show ∀ t ∈ (lexLoop token_mapping (c :: cs) ((c :: cs).length + 1)
        c cs 0).1, _
    exact lexLoop_no_bracket_after_letter (c :: cs) p hp1 hletter
      ((c :: cs).length + 1) c cs 0 (Or.inr ⟨rfl, Or.inl rfl⟩)

/-- C10 witness: in the token stream of `"List[int]"`, the bracket `]` at
index 8 — which directly follows the identifier `int` — contributes no
token: the token carrying position 8 is the `INTEGER` identifier token,
not a bracket token. -/
theorem claim_C10_bracket_skipped_witness :
    ¬((⟨.INTEGER, "int", 8⟩ : Token).position = 8 ∧
      ((⟨.INTEGER, "int", 8⟩ : Token).type = .LPARREN ∨
       (⟨.INTEGER, "int", 8⟩ : Token).type = .RPARREN)) :=
  claim_C10_bracket_skipped "List[int]".data 8 (by decide) (by decide)
    (Or.inr (by decide)) ⟨.INTEGER, "int", 8⟩ (by decide)

end RiotApi
